import Mathlib

/-!
Verification of the storage_doctor core against its specification.

The Go source is shallowly embedded: pure functions become Lean functions,
stateful loops become explicit state passing, machine integers become
Nat/Int (no overflow is relevant at the involved scales), fallible code
returns Option.  Time values (time.Time / time.Duration) are modelled as
Int nanosecond counts; the zero time.Time is modelled as Option.none.
-/

namespace StorageDoctor

/-- Embeds llm.Message (role, content). -/
structure Message where
  role : String
  content : String
deriving Repr, DecidableEq

/-! ## TokenEstimator (src/internal/llm/token_estimator.go) -/

/-- Embeds estimateTextTokens.  Go's len(text) is the UTF-8 byte length and
utf8.RuneCountInString is the character count; int(math.Ceil(x/3.0)) on a
Nat byte count is the exact ceiling division (bytes + 2) / 3. -/
def estimateTextTokens (text : String) : Nat :=
  if text = "" then 0
  else
    let bytes := text.utf8ByteSize
    let runes := text.length
    let estimate := (bytes + 2) / 3
    let estimate := if estimate < runes / 2 then runes / 2 else estimate
    if estimate < 1 then 1 else estimate

/-- Embeds EstimateTokens: per-message cost is estimateTextTokens plus 4,
with the total floored at 1. -/
def EstimateTokens (messages : List Message) : Nat :=
  let total := messages.foldl (fun total msg => total + (estimateTextTokens msg.content + 4)) 0
  if total < 1 then 1 else total

/-- Modelled from the spec's words, for the refinement claim C8: the text
cost of non-empty text is ceil(byte-length / 3), but never less than
character-count / 2 and never less than 1; empty text costs 0. -/
def specTextCost (text : String) : Nat :=
  if text = "" then 0
  else max (max ((text.utf8ByteSize + 2) / 3) (text.length / 2)) 1

/-- Modelled from the spec's words: each message costs 4 plus the text cost
of its content. -/
def specMessageCost (m : Message) : Nat :=
  4 + specTextCost m.content

/-- Modelled from the spec's words: the estimate is the sum of the message
costs, floored at 1. -/
def specEstimateTokens (messages : List Message) : Nat :=
  max ((messages.map specMessageCost).sum) 1

/-! ## RateLimiter (src/internal/llm/rate_limit.go) -/

/-- Embeds llm.RateLimiter.  window is the window duration, windowStart the
window-start timestamp (none embeds Go's zero time.Time). -/
structure RateLimiter where
  window : Int
  maxTokens : Int
  maxRequests : Int
  windowStart : Option Int
  usedTokens : Int
  usedRequests : Int
deriving Repr, DecidableEq

/-- Embeds the window-expiry test in reserve:
l.windowStart.IsZero() or now.Sub(l.windowStart) >= l.window. -/
def windowExpired (l : RateLimiter) (now : Int) : Bool :=
  match l.windowStart with
  | none => true
  | some s => decide (now - s ≥ l.window)

/-- Embeds RateLimiter.reserve, with the current time passed explicitly.
Returns the updated limiter state and the wait duration. -/
def RateLimiter.reserve (l : RateLimiter) (now tokens : Int) : RateLimiter × Int :=
  let l :=
    if windowExpired l now then
      { l with windowStart := some now, usedTokens := 0, usedRequests := 0 }
    else l
  if (l.maxTokens ≤ 0 ∨ l.usedTokens + tokens ≤ l.maxTokens) ∧
     (l.maxRequests ≤ 0 ∨ l.usedRequests + 1 ≤ l.maxRequests) then
    ({ l with usedTokens := l.usedTokens + tokens, usedRequests := l.usedRequests + 1 }, 0)
  else
    let wait := l.windowStart.getD now + l.window - now
    if wait < 0 then (l, 0) else (l, wait)

/-- Folds reserve over a sequence of (now, tokens) calls, collecting the
returned wait of every call. -/
def reserveAll (l : RateLimiter) : List (Int × Int) → RateLimiter × List Int
  | [] => (l, [])
  | c :: cs =>
    let r := l.reserve c.1 c.2
    let rest := reserveAll r.1 cs
    (rest.1, r.2 :: rest.2)

/-! ## JSON values and a model of encoding/json.Unmarshal into a map

Go's map from string to interface values is modelled as an association
list without duplicate keys (insertField overwrites an existing key, as a
map store does); Go's unspecified map iteration order is modelled as the
list order.  The parser models encoding/json.Unmarshal into such a map:
the whole input, with surrounding whitespace allowed, must be exactly one
JSON object, otherwise the result is none and, as in Go (Unmarshal
validates the whole input before decoding), nothing is written.  Numeric
values are modelled as integers and unicode escapes are not modelled; the
verified streams use neither fractions nor unicode escapes. -/

inductive Json where
  | null
  | bool (b : Bool)
  | num (n : Int)
  | str (s : String)
  | arr (elems : List Json)
  | obj (fields : List (String × Json))
deriving Repr

/-- The opening brace character, written by code point. -/
def lbrace : Char := Char.ofNat 123

/-- The closing brace character, written by code point. -/
def rbrace : Char := Char.ofNat 125

def isWsChar (c : Char) : Bool :=
  (c == ' ') || (c == '\t') || (c == '\n') || (c == '\r')

def skipWs : List Char → List Char
  | [] => []
  | c :: cs => if isWsChar c then skipWs cs else c :: cs

/-- Map-style store into an association list: overwrite the entry of an
existing key, otherwise append. -/
def insertField (fields : List (String × Json)) (k : String) (v : Json) :
    List (String × Json) :=
  match fields with
  | [] => [(k, v)]
  | f :: rest => if f.1 = k then (k, v) :: rest else f :: insertField rest k v

def lookupField (fields : List (String × Json)) (k : String) : Option Json :=
  match fields with
  | [] => none
  | f :: rest => if f.1 = k then some f.2 else lookupField rest k

/-- Map-style delete from an association list. -/
def eraseField (fields : List (String × Json)) (k : String) : List (String × Json) :=
  match fields with
  | [] => []
  | f :: rest => if f.1 = k then rest else f :: eraseField rest k

def escChar (c : Char) : Option Char :=
  if c = '"' then some '"'
  else if c = '\\' then some '\\'
  else if c = '/' then some '/'
  else if c = 'n' then some '\n'
  else if c = 't' then some '\t'
  else if c = 'r' then some '\r'
  else none

/-- Parses the body of a JSON string literal, the opening quote already
consumed; returns the string and the remaining input. -/
def parseStringBody (acc : List Char) : List Char → Option (String × List Char)
  | [] => none
  | c :: cs =>
    if c = '"' then some (String.mk acc.reverse, cs)
    else if c = '\\' then
      match cs with
      | [] => none
      | e :: cs2 =>
        match escChar e with
        | some d => parseStringBody (d :: acc) cs2
        | none => none
    else parseStringBody (c :: acc) cs

def digitsVal (ds : List Char) : Int :=
  ds.foldl (fun a c => a * 10 + (Int.ofNat (c.toNat - 48))) 0

def parseNumberFrom (l : List Char) : Option (Json × List Char) :=
  match l with
  | '-' :: rest =>
    let ds := rest.takeWhile Char.isDigit
    if ds.isEmpty then none
    else some (Json.num (-(digitsVal ds)), rest.dropWhile Char.isDigit)
  | _ =>
    let ds := l.takeWhile Char.isDigit
    if ds.isEmpty then none
    else some (Json.num (digitsVal ds), l.dropWhile Char.isDigit)

def stripChars : List Char → List Char → Option (List Char)
  | [], rest => some rest
  | p :: ps, c :: cs => if c = p then stripChars ps cs else none
  | _ :: _, [] => none

mutual

/-- Recursive-descent parser for one JSON value; fuel bounds nesting. -/
def parseValue : Nat → List Char → Option (Json × List Char)
  | 0, _ => none
  | Nat.succ fuel, input =>
    match skipWs input with
    | [] => none
    | c :: cs =>
      if c = '"' then
        match parseStringBody [] cs with
        | some (s, rest) => some (Json.str s, rest)
        | none => none
      else if c = lbrace then
        match skipWs cs with
        | c2 :: cs2 =>
          if c2 = rbrace then some (Json.obj [], cs2)
          else parseMembers fuel [] cs
        | [] => none
      else if c = '[' then
        match skipWs cs with
        | c2 :: cs2 =>
          if c2 = ']' then some (Json.arr [], cs2)
          else parseElems fuel [] cs
        | [] => none
      else
        match stripChars "true".toList (c :: cs) with
        | some rest => some (Json.bool true, rest)
        | none =>
          match stripChars "false".toList (c :: cs) with
          | some rest => some (Json.bool false, rest)
          | none =>
            match stripChars "null".toList (c :: cs) with
            | some rest => some (Json.null, rest)
            | none => parseNumberFrom (c :: cs)

/-- Parses the members of a JSON object, the opening brace already
consumed, at least one member present. -/
def parseMembers : Nat → List (String × Json) → List Char → Option (Json × List Char)
  | 0, _, _ => none
  | Nat.succ fuel, acc, input =>
    match skipWs input with
    | c :: cs =>
      if c = '"' then
        match parseStringBody [] cs with
        | some (key, rest) =>
          match skipWs rest with
          | ':' :: rest2 =>
            match parseValue fuel rest2 with
            | some (v, rest3) =>
              match skipWs rest3 with
              | ',' :: rest4 => parseMembers fuel (insertField acc key v) rest4
              | c2 :: rest4 =>
                if c2 = rbrace then some (Json.obj (insertField acc key v), rest4)
                else none
              | [] => none
            | none => none
          | _ => none
        | none => none
      else none
    | [] => none

/-- Parses the elements of a JSON array, the opening bracket already
consumed, at least one element present. -/
def parseElems : Nat → List Json → List Char → Option (Json × List Char)
  | 0, _, _ => none
  | Nat.succ fuel, acc, input =>
    match parseValue fuel input with
    | some (v, rest) =>
      match skipWs rest with
      | ',' :: rest2 => parseElems fuel (acc ++ [v]) rest2
      | ']' :: rest2 => some (Json.arr (acc ++ [v]), rest2)
      | _ => none
    | none => none

end

/-- Models json.Unmarshal(data, m) for m a string-keyed map: succeeds only
when the whole input is one JSON object (surrounded by whitespace at most),
and yields its fields. -/
def unmarshalObj (s : String) : Option (List (String × Json)) :=
  match parseValue (s.length + 2) s.toList with
  | some (Json.obj fields, rest) => if (skipWs rest).isEmpty then some fields else none
  | _ => none

/-! ## ToolCall (src/internal/llm, tools definitions file) -/

/-- Embeds llm.ToolCall; the input map is an association list. -/
structure ToolCall where
  id : String
  name : String
  input : List (String × Json)
deriving Repr

/-! ## Anthropic stream decoder (src/internal/llm/anthropic.go)

The SSE line handling is abstracted: the event list models the stream of
successfully JSON-decoded "data:" records in order (lines without the
prefix, blank lines and records whose JSON does not decode are skipped by
the source and are therefore simply absent); the end of the list models the
DONE sentinel or the end of the scanner.  hasToolCb models whether the
onToolCall callback is non-nil. -/

/-- Embeds anthropicContentBlock (the fields the decoder reads). -/
structure AnthContentBlock where
  type : String := ""
  text : String := ""
  id : String := ""
  toolUseId : String := ""
  name : String := ""
  input : Option (List (String × Json)) := none
deriving Repr

/-- Embeds anthropicDelta. -/
structure AnthDelta where
  type : String := ""
  text : String := ""
  partialJson : String := ""
  toolUseId : String := ""
  name : String := ""
  input : Option (List (String × Json)) := none
deriving Repr

/-- Embeds anthropicStreamResponse. -/
structure AnthEvent where
  type : String := ""
  delta : Option AnthDelta := none
  contentBlock : Option AnthContentBlock := none
deriving Repr

/-- Embeds the decoder's toolBuffer: a nil input map is none, mirroring Go's
nil map versus empty map distinction; inputJSON is the accumulated
argument text of the strings.Builder. -/
structure ToolBuffer where
  id : String
  name : String
  input : Option (List (String × Json))
  inputJSON : String
deriving Repr

/-- Embeds finalizeTool: emits the buffered call only when id and name are
non-empty and a callback is installed, otherwise discards the buffer; the
accumulated argument text, when non-empty, is parsed once here, a parse
failure keeping the prior input (Go logs a warning and goes on); on success
Unmarshal merges into the existing non-nil map. -/
def anthFinalize (hasToolCb : Bool) (cur : Option ToolBuffer) :
    Option ToolBuffer × List ToolCall :=
  match cur with
  | none => (none, [])
  | some t =>
    if t.id = "" ∨ t.name = "" ∨ hasToolCb = false then (none, [])
    else
      let input0 := t.input.getD []
      let input1 :=
        if t.inputJSON = "" then input0
        else
          match unmarshalObj t.inputJSON with
          | some parsed => parsed.foldl (fun m kv => insertField m kv.1 kv.2) input0
          | none => input0
      (none, [⟨t.id, t.name, input1⟩])

/-- Embeds the content_block_start case: a tool_use block finalizes any
pending buffer, then installs a fresh buffer, taking the id from the id
field or, when that is empty, the legacy tool_use_id field. -/
def anthOnBlockStart (hasToolCb : Bool) (cur : Option ToolBuffer)
    (cb? : Option AnthContentBlock) : Option ToolBuffer × List ToolCall :=
  match cb? with
  | none => (cur, [])
  | some cb =>
    if cb.type = "tool_use" then
      let fin := if cur.isSome then anthFinalize hasToolCb cur else (cur, [])
      let tid := if cb.id = "" then cb.toolUseId else cb.id
      (some ⟨tid, cb.name, cb.input, ""⟩, fin.2)
    else (cur, [])

/-- Embeds the legacy tool_use delta case; Go's map iteration over the
delta's input is modelled in list order. -/
def anthLegacyToolUse (cur : Option ToolBuffer) (d : AnthDelta) : ToolBuffer :=
  let t : ToolBuffer := match cur with
    | none => ⟨"", "", some [], ""⟩
    | some t => t
  let t := if t.input.isNone then { t with input := some [] } else t
  let t := if d.toolUseId ≠ "" ∧ t.id = "" then { t with id := d.toolUseId } else t
  let t := if d.name ≠ "" ∧ t.name = "" then { t with name := d.name } else t
  match d.input with
  | none => t
  | some kvs =>
    kvs.foldl (fun t kv =>
      match kv.2 with
      | Json.str s => { t with inputJSON := t.inputJSON ++ s }
      | v => { t with input := some (insertField (t.input.getD []) kv.1 v) }) t

/-- Embeds the content_block_delta case: a non-empty text_delta emits one
chunk; an input_json_delta with a non-empty fragment appends it to the
accumulated argument text of the pending buffer (skipped when no tool use
started); a legacy tool_use delta updates the buffer. -/
def anthOnDelta (cur : Option ToolBuffer) (d? : Option AnthDelta) :
    Option ToolBuffer × List String :=
  match d? with
  | none => (cur, [])
  | some d =>
    if d.type = "text_delta" ∧ d.text ≠ "" then (cur, [d.text])
    else if d.type = "input_json_delta" then
      if d.partialJson ≠ "" then
        match cur with
        | none => (cur, [])
        | some t => (some { t with inputJSON := t.inputJSON ++ d.partialJson }, [])
      else (cur, [])
    else if d.type = "tool_use" then (some (anthLegacyToolUse cur d), [])
    else (cur, [])

/-- The effect of one decoded record: the new buffer, chunks and completed
tool calls emitted by it, whether decoding stops, and whether it stops with
a stream error. -/
structure AnthStepOut where
  cur : Option ToolBuffer
  chunks : List String
  calls : List ToolCall
  stop : Bool
  error : Bool
deriving Repr

/-- Embeds the switch over the record's type field. -/
def anthStep (hasToolCb : Bool) (cur : Option ToolBuffer) (e : AnthEvent) : AnthStepOut :=
  if e.type = "content_block_start" then
    let r := anthOnBlockStart hasToolCb cur e.contentBlock
    ⟨r.1, [], r.2, false, false⟩
  else if e.type = "content_block_delta" then
    let r := anthOnDelta cur e.delta
    ⟨r.1, r.2, [], false, false⟩
  else if e.type = "content_block_stop" then
    let r := anthFinalize hasToolCb cur
    ⟨r.1, [], r.2, false, false⟩
  else if e.type = "message_stop" then
    let r := anthFinalize hasToolCb cur
    ⟨r.1, [], r.2, true, false⟩
  else if e.type = "error" then ⟨cur, [], [], true, true⟩
  else ⟨cur, [], [], false, false⟩

/-- The observable outcome of one streaming call: the text chunks passed to
onChunk, the completed tool calls passed to onToolCall, in order, and
whether the decode loop returned a stream error. -/
structure DecodeOutput where
  chunks : List String
  toolCalls : List ToolCall
  error : Bool
deriving Repr

/-- Runs the Anthropic decode loop over the decoded records.  The end of
the list (the DONE sentinel or the end of input) ends decoding without
finalizing a pending buffer, as the source loop does. -/
def anthRun (hasToolCb : Bool) (cur : Option ToolBuffer) :
    List AnthEvent → DecodeOutput
  | [] => ⟨[], [], false⟩
  | e :: es =>
    let o := anthStep hasToolCb cur e
    if o.error then ⟨o.chunks, o.calls, true⟩
    else if o.stop then ⟨o.chunks, o.calls, false⟩
    else
      let rest := anthRun hasToolCb o.cur es
      ⟨o.chunks ++ rest.chunks, o.calls ++ rest.toolCalls, rest.error⟩

/-- Embeds the stream-decoding part of AnthropicProvider.StreamChatWithTools. -/
def anthDecode (hasToolCb : Bool) (events : List AnthEvent) : DecodeOutput :=
  anthRun hasToolCb none events

/-! ## OpenAI stream decoder (src/internal/llm/openai.go)

Same abstraction of the SSE framing.  The decoder keeps a map from choice
index to in-progress ToolCall, modelled as an association list in first-use
order; the accumulated raw argument text lives in the input map itself
under the key _raw_args, as in the source. -/

/-- Embeds openaiFunctionDelta. -/
structure OaiFunctionDelta where
  name : String := ""
  arguments : String := ""
deriving Repr

/-- Embeds openaiToolCallDelta. -/
structure OaiToolCallDelta where
  index : Nat := 0
  id : String := ""
  function : OaiFunctionDelta := {}
deriving Repr

/-- Embeds openaiDelta. -/
structure OaiDelta where
  content : String := ""
  toolCalls : List OaiToolCallDelta := []
deriving Repr

/-- Embeds openaiStreamResponse: each choice is represented by its delta. -/
structure OaiEvent where
  choices : List OaiDelta := []
deriving Repr

def lookupIdx (buf : List (Nat × ToolCall)) (idx : Nat) : Option ToolCall :=
  match buf with
  | [] => none
  | p :: rest => if p.1 = idx then some p.2 else lookupIdx rest idx

/-- Map-style store keyed by choice index. -/
def bufInsert (buf : List (Nat × ToolCall)) (idx : Nat) (tc : ToolCall) :
    List (Nat × ToolCall) :=
  match buf with
  | [] => [(idx, tc)]
  | p :: rest => if p.1 = idx then (idx, tc) :: rest else p :: bufInsert rest idx tc

/-- Embeds the body of the loop over delta.ToolCalls: create the entry when
absent; a non-empty name always overwrites, a non-empty id is taken only
when none is known; a non-empty argument fragment is appended to the raw
text accumulated under _raw_args and the whole accumulation is re-parsed —
on success the parsed object (minus any _raw_args key) replaces the input,
on failure the accumulation is kept silently. -/
def oaiApplyToolDelta (buf : List (Nat × ToolCall)) (d : OaiToolCallDelta) :
    List (Nat × ToolCall) :=
  let cur : ToolCall :=
    match lookupIdx buf d.index with
    | some tc => tc
    | none => ⟨d.id, d.function.name, []⟩
  let cur := if d.function.name ≠ "" then { cur with name := d.function.name } else cur
  let cur := if d.id ≠ "" ∧ cur.id = "" then { cur with id := d.id } else cur
  let cur :=
    if d.function.arguments ≠ "" then
      let existing :=
        match lookupField cur.input "_raw_args" with
        | some (Json.str s) => s
        | _ => ""
      let existing := existing ++ d.function.arguments
      match unmarshalObj existing with
      | some parsed => { cur with input := eraseField parsed "_raw_args" }
      | none => { cur with input := insertField cur.input "_raw_args" (Json.str existing) }
    else cur
  bufInsert buf d.index cur

/-- The OpenAI decoder's loop state. -/
structure OaiState where
  buf : List (Nat × ToolCall)
  chunks : List String
deriving Repr

/-- Embeds the record handling: only the first choice's delta is read; a
non-empty content emits a chunk; tool-call deltas are processed only when a
tool callback is installed. -/
def oaiStep (hasToolCb : Bool) (s : OaiState) (e : OaiEvent) : OaiState :=
  match e.choices with
  | [] => s
  | d :: _ =>
    let s := if d.content ≠ "" then { s with chunks := s.chunks ++ [d.content] } else s
    if ¬d.toolCalls.isEmpty ∧ hasToolCb then
      { s with buf := d.toolCalls.foldl oaiApplyToolDelta s.buf }
    else s

/-- Embeds the stream-decoding part of OpenAIProvider.StreamChatWithTools:
after the loop, each buffered call with non-empty id and name is emitted
(buffer order models Go's unspecified map order); the others are dropped. -/
def oaiDecode (hasToolCb : Bool) (events : List OaiEvent) : DecodeOutput :=
  let s := events.foldl (oaiStep hasToolCb) ⟨[], []⟩
  { chunks := s.chunks,
    toolCalls :=
      if hasToolCb then
        (s.buf.map Prod.snd).filter (fun tc => tc.id != "" && tc.name != "")
      else [],
    error := false }

/-! ## Concrete stream records used in the verified scenarios -/

/-- A content_block_start record opening a tool_use block. -/
def anthToolStartEvent (id name : String) : AnthEvent :=
  { type := "content_block_start", contentBlock := some { type := "tool_use", id := id, name := name } }

/-- An input_json_delta record carrying one argument fragment. -/
def anthFragEvent (s : String) : AnthEvent :=
  { type := "content_block_delta", delta := some { type := "input_json_delta", partialJson := s } }

/-- A content_block_stop record. -/
def anthBlockStopEvent : AnthEvent := { type := "content_block_stop" }

/-- A message_stop record. -/
def anthMessageStopEvent : AnthEvent := { type := "message_stop" }

/-- A one-choice record carrying a single tool-call delta. -/
def oaiToolDeltaEvent (idx : Nat) (id name args : String) : OaiEvent :=
  { choices := [{ toolCalls := [{ index := idx, id := id, function := { name := name, arguments := args } }] }] }

/-- First argument fragment of the specified tool-call scenario. -/
def c1Frag1 : String := "\x7b\"command\":\"ls\","

/-- Second argument fragment of the specified tool-call scenario. -/
def c1Frag2 : String := "\"description\":\"list\"\x7d"

/-- The JSON object the two fragments form together. -/
def c1Input : List (String × Json) := [("command", Json.str "ls"), ("description", Json.str "list")]

/-! ## ChatProvider call phase (anthropic.go / openai.go)

StreamChatWithTools up to the issuance of the network request is embedded
as a trace of externally visible steps together with the error outcome
(none meaning the call proceeded to the network); the HTTP exchange and
decode loop after that point are covered by the decoder embeddings above. -/

/-- An externally visible step of a provider call. -/
inductive ProviderStep where
  | rateLimitWait (tokens : Nat)
  | httpRequest
deriving Repr, DecidableEq

/-- The error outcomes of the call phase. -/
inductive ChatError where
  | apiKeyNotSet
  | rateLimitCancelled
  | noValidMessages
deriving Repr, DecidableEq

/-- Embeds the message-conversion loop of AnthropicProvider: system
messages are hoisted out of the list and whitespace-only messages are
skipped; the kept messages are sent. -/
def anthropicKeptMessages (messages : List Message) : List Message :=
  messages.filter (fun m => m.role ≠ "system" ∧ m.content.trim ≠ "")

/-- Embeds AnthropicProvider.StreamChatWithTools up to issuing the network
request: the api-key guard, the rate-limit wait over the token estimate
(waitCancelled models the caller's cancellation firing during that wait),
the conversion emptiness check, then the request. -/
def anthropicStreamTrace (apiKey : String) (messages : List Message)
    (waitCancelled : Bool) : List ProviderStep × Option ChatError :=
  if apiKey = "" then ([], some ChatError.apiKeyNotSet)
  else
    let wait := ProviderStep.rateLimitWait (EstimateTokens messages)
    if waitCancelled then ([wait], some ChatError.rateLimitCancelled)
    else if (anthropicKeptMessages messages).isEmpty then
      ([wait], some ChatError.noValidMessages)
    else ([wait, ProviderStep.httpRequest], none)

/-- Embeds OpenAIProvider.StreamChatWithTools up to issuing the network
request: the api-key guard, then the request; this provider constructs no
rate limiter and waits on none. -/
def openaiStreamTrace (apiKey : String) (messages : List Message) :
    List ProviderStep × Option ChatError :=
  if apiKey = "" then ([], some ChatError.apiKeyNotSet)
  else ([ProviderStep.httpRequest], none)

/-! ## ContextManager (chat.Manager, src/unnamed/part_004) -/

/-- Embeds Manager.AddMessage. -/
def AddMessage (msgs : List Message) (role content : String) : List Message :=
  msgs ++ [⟨role, content⟩]

/-- Embeds Manager.SetSystemPrompt: remove every system message, insert the
new one at position 0. -/
def SetSystemPrompt (msgs : List Message) (prompt : String) : List Message :=
  ⟨"system", prompt⟩ :: msgs.filter (fun m => m.role ≠ "system")

/-- Embeds Manager.summarizeThreshold (NewManager). -/
def summarizeThreshold : Nat := 30

/-- The system message of the summary request. -/
def summarySystemText : String :=
  "You are a helpful assistant that summarizes conversations while preserving important technical details."

/-- Embeds the summary-prompt construction over the older messages. -/
def summaryPromptText (old : List Message) : String :=
  "다음 대화 내용을 간결하게 요약해주세요. 중요한 정보(에러 메시지, 명령어, 파일 경로 등)는 반드시 포함해주세요:\n\n"
    ++ String.join (old.map (fun m => m.role ++ ": " ++ m.content ++ "\n"))

/-- The message list summarizeContext sends to provider.Chat. -/
def summaryRequest (msgs : List Message) : List Message :=
  [⟨"system", summarySystemText⟩, ⟨"user", summaryPromptText (msgs.take (msgs.length - 5))⟩]

/-- Embeds Manager.summarizeContext; chat models provider.Chat on the
summary request, none being a provider error.  Below the 10-message floor
nothing changes; on success the messages become one synthesized system
message followed by the last 5 messages; on failure the result is none and
the caller keeps the original list. -/
def summarizeContext (chat : List Message → Option String) (msgs : List Message) :
    Option (List Message) :=
  if msgs.length < 10 then some msgs
  else
    match chat (summaryRequest msgs) with
    | none => none
    | some summary =>
      some (⟨"system", "Previous conversation summary: " ++ summary⟩
        :: msgs.drop (msgs.length - 5))

/-- Embeds the call site in Manager.StreamChatWithTools: summarization runs
only above the threshold, and a summarization failure keeps the current
messages (the warning is printed and the request goes on). -/
def checkSummarize (chat : List Message → Option String) (msgs : List Message) :
    List Message :=
  if msgs.length > summarizeThreshold then
    match summarizeContext chat msgs with
    | some newMsgs => newMsgs
    | none => msgs
  else msgs

/-! ## AgentLoop (src/internal/agent/agent.go)

One streamed reply is modelled by its observable outcome: the concatenated
text and the collected tool calls.  The provider is an oracle from the
current message list to a reply, none modelling a provider error; the tool
executor is the injected callback.  The system prompt built by
buildSystemPrompt is an opaque string parameter. -/

/-- The outcome of one streamed reply. -/
structure StreamReply where
  text : String
  toolCalls : List ToolCall

/-- Embeds Agent.maxIterations (NewAgent). -/
def maxIterations : Nat := 10

/-- Embeds chat.FormatToolCall (src/unnamed/part_003). -/
def FormatToolCall (toolName result : String) (success : Bool) : String :=
  let status := if success then "성공" else "실패"
  "<tool_result name=\"" ++ toolName ++ "\" status=\"" ++ status ++ "\">"
    ++ result ++ "</tool_result>"

/-- Embeds the tool-dispatch round: every outcome, success or error, is
formatted and the records joined with blank lines. -/
def toolResultsText (exec : ToolCall → Except String String) (calls : List ToolCall) :
    String :=
  String.intercalate "\n\n" (calls.map (fun tc =>
    match exec tc with
    | Except.error e => FormatToolCall tc.name ("오류: " ++ e) false
    | Except.ok r => FormatToolCall tc.name r true))

/-- Embeds the loop of Agent.ExecuteTask; fuel is the remaining iteration
budget, acc the accumulated final response.  Returns the final message list
and response (none on a provider error, which returns immediately) and the
number of provider calls made. -/
def executeLoop (oracle : List Message → Option StreamReply)
    (exec : ToolCall → Except String String) :
    Nat → List Message → String → Option (List Message × String) × Nat
  | 0, msgs, acc => (some (AddMessage msgs "assistant" acc, acc), 0)
  | Nat.succ fuel, msgs, acc =>
    match oracle msgs with
    | none => (none, 1)
    | some reply =>
      let acc2 := acc ++ reply.text ++ "\n\n"
      if reply.toolCalls.isEmpty then
        (some (AddMessage (AddMessage msgs "assistant" reply.text) "assistant" acc2, acc2), 1)
      else
        let msgs2 := AddMessage msgs "user" (toolResultsText exec reply.toolCalls)
        let r := executeLoop oracle exec fuel msgs2 acc2
        (r.1, r.2 + 1)

/-- Embeds Agent.ExecuteTask: install the system prompt, append the task as
a user turn, run the loop. -/
def ExecuteTask (oracle : List Message → Option StreamReply)
    (exec : ToolCall → Except String String) (systemPrompt task : String)
    (msgs0 : List Message) : Option (List Message × String) × Nat :=
  executeLoop oracle exec maxIterations
    (AddMessage (SetSystemPrompt msgs0 systemPrompt) "user" task) ""

/-- The outcome of Agent.StreamTask. -/
inductive AgentResult where
  | ok (messages : List Message)
  | llmError
  | emptyResponse
deriving Repr

/-- Embeds the loop of Agent.StreamTask: a reply with empty text and zero
tool calls is a protocol failure; exhausting the budget returns without
error. -/
def streamLoop (oracle : List Message → Option StreamReply)
    (exec : ToolCall → Except String String) :
    Nat → List Message → AgentResult × Nat
  | 0, msgs => (AgentResult.ok msgs, 0)
  | Nat.succ fuel, msgs =>
    match oracle msgs with
    | none => (AgentResult.llmError, 1)
    | some reply =>
      if reply.text = "" ∧ reply.toolCalls.isEmpty then (AgentResult.emptyResponse, 1)
      else if reply.toolCalls.isEmpty then
        (AgentResult.ok (AddMessage msgs "assistant" reply.text), 1)
      else
        let msgs2 := AddMessage msgs "user" (toolResultsText exec reply.toolCalls)
        let r := streamLoop oracle exec fuel msgs2
        (r.1, r.2 + 1)

/-- Embeds Agent.StreamTask. -/
def StreamTask (oracle : List Message → Option StreamReply)
    (exec : ToolCall → Except String String) (systemPrompt task : String)
    (msgs0 : List Message) : AgentResult × Nat :=
  streamLoop oracle exec maxIterations
    (AddMessage (SetSystemPrompt msgs0 systemPrompt) "user" task)

end StorageDoctor

namespace StorageDoctor

/-! ## Theorems: TokenEstimator -/

theorem estimateTextTokens_eq_spec (s : String) :
    estimateTextTokens s = specTextCost s := by
  unfold estimateTextTokens specTextCost
  by_cases h : s = ""
  · simp [h]
  · simp only [h, if_false]
    split_ifs <;> omega

theorem foldl_cost_eq_sum (messages : List Message) (a : Nat) :
    messages.foldl (fun total msg => total + (estimateTextTokens msg.content + 4)) a
      = a + (messages.map specMessageCost).sum := by
  induction messages generalizing a with
  | nil => simp
  | cons m rest ih =>
    simp only [List.foldl_cons, List.map_cons, List.sum_cons]
    rw [ih, estimateTextTokens_eq_spec, specMessageCost]
    omega

/-- Claim C8: for every message list, EstimateTokens equals the sum over all
messages of 4 plus the text cost of the content, floored at 1, where the
text cost of non-empty text is ceil(byte-length / 3) but never less than
character-count / 2 and never less than 1, and empty text costs 0. -/
theorem estimateTokens_matches_spec (messages : List Message) :
    EstimateTokens messages = specEstimateTokens messages := by
  unfold EstimateTokens specEstimateTokens
  rw [foldl_cost_eq_sum]
  simp only [Nat.zero_add]
  split_ifs <;> omega

/-! ## Theorems: RateLimiter -/

theorem windowExpired_false (l : RateLimiter) (now s : Int)
    (hs : l.windowStart = some s) (hin : now - s < l.window) :
    windowExpired l now = false := by
  unfold windowExpired
  rw [hs]
  simp only [decide_eq_false_iff_not]
  omega

theorem reserve_admit (l : RateLimiter) (now tokens s : Int)
    (hs : l.windowStart = some s) (hin : now - s < l.window)
    (ht : l.maxTokens ≤ 0 ∨ l.usedTokens + tokens ≤ l.maxTokens)
    (hr : l.maxRequests ≤ 0 ∨ l.usedRequests + 1 ≤ l.maxRequests) :
    l.reserve now tokens =
      ({ l with usedTokens := l.usedTokens + tokens, usedRequests := l.usedRequests + 1 }, 0) := by
  unfold RateLimiter.reserve
  rw [windowExpired_false l now s hs hin]
  simp only [Bool.false_eq_true, if_false]
  rw [if_pos ⟨ht, hr⟩]

theorem reserve_deny (l : RateLimiter) (now tokens s : Int)
    (hs : l.windowStart = some s) (hnow : s ≤ now) (hin : now - s < l.window)
    (hdeny : ¬((l.maxTokens ≤ 0 ∨ l.usedTokens + tokens ≤ l.maxTokens) ∧
               (l.maxRequests ≤ 0 ∨ l.usedRequests + 1 ≤ l.maxRequests))) :
    l.reserve now tokens = (l, s + l.window - now) ∧
      0 < s + l.window - now ∧ s + l.window - now ≤ l.window := by
  unfold RateLimiter.reserve
  rw [windowExpired_false l now s hs hin]
  simp only [Bool.false_eq_true, if_false]
  rw [if_neg hdeny]
  simp only [hs, Option.getD_some]
  refine ⟨?_, by omega, by omega⟩
  rw [if_neg (by omega)]

theorem reserveAll_no_wait (w M R t0 u r : Int) (calls : List (Int × Int))
    (_hw : 0 < w)
    (htimes : ∀ c ∈ calls, t0 ≤ c.1 ∧ c.1 - t0 < w)
    (htok : ∀ c ∈ calls, 0 ≤ c.2)
    (hM : M ≤ 0 ∨ u + (calls.map Prod.snd).sum ≤ M)
    (hR : R ≤ 0 ∨ r + (calls.length : Int) ≤ R) :
    (reserveAll ⟨w, M, R, some t0, u, r⟩ calls).2 = List.replicate calls.length 0 := by
  induction calls generalizing u r with
  | nil => simp [reserveAll]
  | cons c cs ih =>
    have hc := htimes c (List.mem_cons_self c cs)
    have hct := htok c (List.mem_cons_self c cs)
    have hsum : 0 ≤ (cs.map Prod.snd).sum :=
      List.sum_nonneg (by
        intro x hx
        rcases List.mem_map.mp hx with ⟨p, hp, hpx⟩
        rw [← hpx]; exact htok p (List.mem_cons_of_mem c hp))
    simp only [List.map_cons, List.sum_cons] at hM
    simp only [List.length_cons] at hR
    push_cast at hR
    have hstep := reserve_admit ⟨w, M, R, some t0, u, r⟩ c.1 c.2 t0 rfl hc.2
      (by dsimp only; omega) (by dsimp only; omega)
    show (reserveAll ⟨w, M, R, some t0, u, r⟩ (c :: cs)).2 = _
    rw [reserveAll, hstep]
    simp only [List.length_cons, List.replicate_succ]
    have hrec := ih (u + c.2) (r + 1)
      (fun x hx => htimes x (List.mem_cons_of_mem c hx))
      (fun x hx => htok x (List.mem_cons_of_mem c hx))
      (by omega) (by omega)
    simp only at hrec ⊢
    rw [hrec]

/-- Claim C3 (amended): per reserve call, in an unexpired window the call is
admitted (both counters incremented, zero wait) exactly when both cap
conditions hold, and otherwise leaves the counters unchanged and returns the
positive remaining window time, bounded by the window duration; when the
window is expired or never started, the window restarts at now with zeroed
counters before the cap check.  A sequence of in-window reserve calls whose
cumulative tokens stay within max-tokens and whose request count stays
within max-requests never returns a positive wait. -/
theorem rateLimiter_reserve_correct :
    (∀ (l : RateLimiter) (now tokens s : Int), l.windowStart = some s → s ≤ now →
      now - s < l.window →
      (((l.maxTokens ≤ 0 ∨ l.usedTokens + tokens ≤ l.maxTokens) ∧
        (l.maxRequests ≤ 0 ∨ l.usedRequests + 1 ≤ l.maxRequests)) →
        l.reserve now tokens =
          ({ l with usedTokens := l.usedTokens + tokens,
                    usedRequests := l.usedRequests + 1 }, 0)) ∧
      (¬((l.maxTokens ≤ 0 ∨ l.usedTokens + tokens ≤ l.maxTokens) ∧
         (l.maxRequests ≤ 0 ∨ l.usedRequests + 1 ≤ l.maxRequests)) →
        l.reserve now tokens = (l, s + l.window - now) ∧
          0 < s + l.window - now ∧ s + l.window - now ≤ l.window)) ∧
    (∀ (l : RateLimiter) (now tokens : Int), windowExpired l now = true →
      (l.reserve now tokens).1.windowStart = some now ∧
      (((l.maxTokens ≤ 0 ∨ tokens ≤ l.maxTokens) ∧
        (l.maxRequests ≤ 0 ∨ (1 : Int) ≤ l.maxRequests)) →
        (l.reserve now tokens).2 = 0 ∧
        (l.reserve now tokens).1.usedTokens = tokens ∧
        (l.reserve now tokens).1.usedRequests = 1)) ∧
    (∀ (w M R t0 : Int) (calls : List (Int × Int)), 0 < w →
      (∀ c ∈ calls, t0 ≤ c.1 ∧ c.1 - t0 < w) →
      (∀ c ∈ calls, 0 ≤ c.2) →
      (M ≤ 0 ∨ (calls.map Prod.snd).sum ≤ M) →
      (R ≤ 0 ∨ (calls.length : Int) ≤ R) →
      (reserveAll ⟨w, M, R, some t0, 0, 0⟩ calls).2 = List.replicate calls.length 0) := by
  refine ⟨?_, ?_, ?_⟩
  · intro l now tokens s hs hnow hin
    exact ⟨fun h => reserve_admit l now tokens s hs hin h.1 h.2,
           fun h => reserve_deny l now tokens s hs hnow hin h⟩
  · intro l now tokens hexp
    unfold RateLimiter.reserve
    rw [hexp]
    simp only [if_true]
    constructor
    · split_ifs <;> simp
    · intro h
      rw [if_pos (by constructor <;> (dsimp only; omega))]
      refine ⟨rfl, by dsimp only; omega, by dsimp only; omega⟩
  · intro w M R t0 calls hw htimes htok hM hR
    exact reserveAll_no_wait w M R t0 0 0 calls hw htimes htok (by omega) (by omega)

/-- Witness for C3's theorem at concrete inputs. -/
theorem rateLimiter_reserve_correct_witness :
    (reserveAll ⟨60, 100, 10, some 0, 0, 0⟩ [(0, 10), (1, 20)]).2 = [0, 0] := by
  have h := rateLimiter_reserve_correct.2.2 60 100 10 0 [(0, 10), (1, 20)]
    (by decide) (by decide) (by decide) (by norm_num) (by norm_num)
  simpa using h

/-- Counterexample to C3 as stated: two reserve calls inside one window whose
cumulative tokens (10 + 10 = 20) stay within max-tokens (100) where the
second call nevertheless returns positive wait 59, because the request cap
(max-requests = 1) denies it. -/
theorem rateLimiter_token_budget_not_sufficient :
    (reserveAll ⟨60, 100, 1, some 0, 0, 0⟩ [(0, 10), (1, 10)]).2 = [0, 59] ∧
    (10 : Int) + 10 ≤ 100 ∧ (0 : Int) < 59 := by
  refine ⟨?_, by norm_num, by norm_num⟩
  decide

/-! ## Theorems: stream decoders -/

theorem anthFinalize_calls_valid (hasToolCb : Bool) (cur : Option ToolBuffer) :
    ∀ tc ∈ (anthFinalize hasToolCb cur).2, tc.id ≠ "" ∧ tc.name ≠ "" := by
  intro tc htc
  match cur with
  | none => simp [anthFinalize] at htc
  | some t =>
    by_cases h : t.id = "" ∨ t.name = "" ∨ hasToolCb = false
    · rw [anthFinalize, if_pos h] at htc
      simp at htc
    · rw [anthFinalize, if_neg h] at htc
      push_neg at h
      simp only [List.mem_singleton] at htc
      subst htc
      exact ⟨h.1, h.2.1⟩

theorem anthOnBlockStart_calls_valid (hasToolCb : Bool) (cur : Option ToolBuffer)
    (cb? : Option AnthContentBlock) :
    ∀ tc ∈ (anthOnBlockStart hasToolCb cur cb?).2, tc.id ≠ "" ∧ tc.name ≠ "" := by
  intro tc htc
  match cb? with
  | none => simp [anthOnBlockStart] at htc
  | some cb =>
    rw [anthOnBlockStart] at htc
    split_ifs at htc
    · dsimp only at htc
      exact anthFinalize_calls_valid hasToolCb cur tc htc
    · dsimp only at htc
      exact anthFinalize_calls_valid hasToolCb cur tc htc
    · simp at htc
    · simp at htc
    · simp at htc

theorem anthStep_calls_valid (hasToolCb : Bool) (cur : Option ToolBuffer) (e : AnthEvent) :
    ∀ tc ∈ (anthStep hasToolCb cur e).calls, tc.id ≠ "" ∧ tc.name ≠ "" := by
  intro tc htc
  rw [anthStep] at htc
  split_ifs at htc <;> simp only at htc
  · exact anthOnBlockStart_calls_valid hasToolCb cur e.contentBlock tc htc
  · simp at htc
  · exact anthFinalize_calls_valid hasToolCb cur tc htc
  · exact anthFinalize_calls_valid hasToolCb cur tc htc
  · simp at htc
  · simp at htc

theorem anthRun_calls_valid (hasToolCb : Bool) (events : List AnthEvent) :
    ∀ cur, ∀ tc ∈ (anthRun hasToolCb cur events).toolCalls, tc.id ≠ "" ∧ tc.name ≠ "" := by
  induction events with
  | nil => intro cur tc htc; simp [anthRun] at htc
  | cons e es ih =>
    intro cur tc htc
    rw [anthRun] at htc
    split_ifs at htc <;> simp only at htc
    · exact anthStep_calls_valid hasToolCb cur e tc htc
    · exact anthStep_calls_valid hasToolCb cur e tc htc
    · rcases List.mem_append.mp htc with h | h
      · exact anthStep_calls_valid hasToolCb cur e tc h
      · exact ih _ tc h

theorem oaiDecode_calls_valid (hasToolCb : Bool) (events : List OaiEvent) :
    ∀ tc ∈ (oaiDecode hasToolCb events).toolCalls, tc.id ≠ "" ∧ tc.name ≠ "" := by
  intro tc htc
  rw [oaiDecode] at htc
  simp only at htc
  split_ifs at htc
  · have h2 := (List.mem_filter.mp htc).2
    simp only [Bool.and_eq_true, bne_iff_ne, ne_eq] at h2
    exact h2
  · simp at htc

/-- Claim C2: for every stream decoder, a completed tool call is emitted
only when both the buffered id and name are non-empty, otherwise the buffer
entry is silently discarded; in particular a tool-call block that never
receives a non-empty id and name before stream end produces zero completed
tool calls. -/
theorem emitted_toolCalls_have_id_name :
    (∀ (hasToolCb : Bool) (events : List AnthEvent),
      ∀ tc ∈ (anthDecode hasToolCb events).toolCalls, tc.id ≠ "" ∧ tc.name ≠ "") ∧
    (∀ (hasToolCb : Bool) (events : List OaiEvent),
      ∀ tc ∈ (oaiDecode hasToolCb events).toolCalls, tc.id ≠ "" ∧ tc.name ≠ "") ∧
    (anthDecode true [anthToolStartEvent "" "", anthFragEvent "\x7b\"a\":1\x7d",
        anthBlockStopEvent, anthMessageStopEvent]).toolCalls = [] ∧
    (oaiDecode true [oaiToolDeltaEvent 0 "" "" "\x7b\"a\":1\x7d"]).toolCalls = [] := by
  refine ⟨?_, oaiDecode_calls_valid, rfl, rfl⟩
  intro hasToolCb events
  exact anthRun_calls_valid hasToolCb events none

/-- Witness for C2's theorem: a concrete stream whose emitted tool call
instantiates the non-empty id and name conclusion. -/
theorem emitted_toolCalls_have_id_name_witness :
    ("toolu_1" : String) ≠ "" ∧ ("execute_command" : String) ≠ "" := by
  have hmem : (⟨"toolu_1", "execute_command", []⟩ : ToolCall) ∈
      (anthDecode true [anthToolStartEvent "toolu_1" "execute_command",
        anthBlockStopEvent]).toolCalls := by
    have h : (anthDecode true [anthToolStartEvent "toolu_1" "execute_command",
        anthBlockStopEvent]).toolCalls = [⟨"toolu_1", "execute_command", []⟩] := rfl
    rw [h]
    exact List.mem_singleton.mpr rfl
  exact emitted_toolCalls_have_id_name.1 true
    [anthToolStartEvent "toolu_1" "execute_command", anthBlockStopEvent]
    ⟨"toolu_1", "execute_command", []⟩ hmem

/-- Claim C1 (amended): in the OpenAI decoder each argument fragment is
appended to the raw argument text accumulated under _raw_args and the full
accumulation is then re-parsed as a JSON object, a success replacing the
in-progress input with the parsed object and a failure kept silently; in
the Anthropic decoder fragments are only appended to the accumulated
argument text, which is parsed once at finalization; neither decoder turns
a parse failure into a stream error, and in both the two specified
fragments finalize to the input mapping command to ls and description to
list. -/
theorem argFragment_accumulation :
    (∀ (t : ToolBuffer) (j : String), j ≠ "" →
      anthStep true (some t) (anthFragEvent j) =
        ⟨some { t with inputJSON := t.inputJSON ++ j }, [], [], false, false⟩) ∧
    (anthDecode true [anthToolStartEvent "toolu_1" "execute_command",
        anthFragEvent c1Frag1, anthFragEvent c1Frag2,
        anthBlockStopEvent, anthMessageStopEvent] =
      ⟨[], [⟨"toolu_1", "execute_command", c1Input⟩], false⟩) ∧
    (oaiDecode true [oaiToolDeltaEvent 0 "call_1" "execute_command" c1Frag1,
        oaiToolDeltaEvent 0 "" "" c1Frag2] =
      ⟨[], [⟨"call_1", "execute_command", c1Input⟩], false⟩) ∧
    ((oaiStep true ⟨[], []⟩ (oaiToolDeltaEvent 0 "call_1" "execute_command" c1Frag1)).buf =
      [(0, ⟨"call_1", "execute_command", [("_raw_args", Json.str c1Frag1)]⟩)]) ∧
    ((oaiStep true (oaiStep true ⟨[], []⟩ (oaiToolDeltaEvent 0 "call_1" "execute_command" c1Frag1))
        (oaiToolDeltaEvent 0 "" "" c1Frag2)).buf =
      [(0, ⟨"call_1", "execute_command", c1Input⟩)]) := by
  refine ⟨?_, rfl, rfl, rfl, rfl⟩
  intro t j hj
  simp [anthStep, anthFragEvent, anthOnDelta, hj]

/-- Witness for C1's theorem at a concrete buffer and fragment. -/
theorem argFragment_accumulation_witness :
    anthStep true (some ⟨"i", "n", none, "ab"⟩) (anthFragEvent "cd") =
      ⟨some ⟨"i", "n", none, "abcd"⟩, [], [], false, false⟩ := by
  have h := argFragment_accumulation.1 ⟨"i", "n", none, "ab"⟩ "cd" (by decide)
  exact h

/-- Counterexample to C1 as stated: in the Anthropic decoder an
argument-fragment record whose accumulated text already parses as a
complete JSON object leaves the in-progress input untouched (still none,
not the parsed object); the parse happens only at finalization. -/
theorem anth_fragment_parse_deferred :
    unmarshalObj "\x7b\"a\":\"b\"\x7d" = some [("a", Json.str "b")] ∧
    (anthStep true (anthStep true none (anthToolStartEvent "toolu_1" "execute_command")).cur
        (anthFragEvent "\x7b\"a\":\"b\"\x7d")).cur =
      some ⟨"toolu_1", "execute_command", none, "\x7b\"a\":\"b\"\x7d"⟩ ∧
    (none : Option (List (String × Json))) ≠ some [("a", Json.str "b")] := by
  refine ⟨rfl, rfl, by simp⟩

/-! ## Theorems: provider call phase -/

/-- Claim C9: with no API credential configured either provider returns the
authentication error with an empty step trace, so before any network
request. -/
theorem missing_api_key_no_request (messages : List Message) (waitCancelled : Bool) :
    anthropicStreamTrace "" messages waitCancelled = ([], some ChatError.apiKeyNotSet) ∧
    openaiStreamTrace "" messages = ([], some ChatError.apiKeyNotSet) ∧
    ProviderStep.httpRequest ∉ (anthropicStreamTrace "" messages waitCancelled).1 ∧
    ProviderStep.httpRequest ∉ (openaiStreamTrace "" messages).1 := by
  refine ⟨rfl, rfl, ?_, ?_⟩ <;> simp [anthropicStreamTrace, openaiStreamTrace]

/-- Claim C4 (amended): the Anthropic provider estimates the tokens of the
outgoing messages and waits on its rate limiter as its first step after the
credential check, a cancellation during that wait returning the
cancellation error with no network request; the OpenAI provider performs no
rate-limit wait at all. -/
theorem anthropic_rate_wait_before_request (apiKey : String) (messages : List Message)
    (waitCancelled : Bool) (hk : apiKey ≠ "") :
    (anthropicStreamTrace apiKey messages waitCancelled).1.head? =
      some (ProviderStep.rateLimitWait (EstimateTokens messages)) ∧
    (waitCancelled = true →
      anthropicStreamTrace apiKey messages waitCancelled =
        ([ProviderStep.rateLimitWait (EstimateTokens messages)],
          some ChatError.rateLimitCancelled) ∧
      ProviderStep.httpRequest ∉ (anthropicStreamTrace apiKey messages waitCancelled).1) ∧
    (∀ n, ProviderStep.rateLimitWait n ∉ (openaiStreamTrace apiKey messages).1) := by
  refine ⟨?_, ?_, ?_⟩
  · rw [anthropicStreamTrace, if_neg hk]
    dsimp only
    split_ifs <;> rfl
  · intro hwc
    rw [anthropicStreamTrace, if_neg hk]
    subst hwc
    simp
  · intro n
    rw [openaiStreamTrace, if_neg hk]
    simp

/-- Witness for C4's theorem at a concrete key, message list and
cancellation flag. -/
theorem anthropic_rate_wait_before_request_witness :
    (anthropicStreamTrace "k" [⟨"user", "hi"⟩] true).1.head? =
      some (ProviderStep.rateLimitWait (EstimateTokens [⟨"user", "hi"⟩])) :=
  (anthropic_rate_wait_before_request "k" [⟨"user", "hi"⟩] true (by decide)).1

/-- Counterexample to C4 as stated: the OpenAI provider issues the network
request without ever waiting on a rate limiter — its whole call-phase trace
is the bare request, and the wait over the message estimate is not in it. -/
theorem openai_no_rate_wait :
    openaiStreamTrace "k" [⟨"user", "hi"⟩] = ([ProviderStep.httpRequest], none) ∧
    ProviderStep.rateLimitWait (EstimateTokens [⟨"user", "hi"⟩]) ∉
      (openaiStreamTrace "k" [⟨"user", "hi"⟩]).1 := by
  exact ⟨rfl, by decide⟩

/-! ## Theorems: ContextManager summarization -/

/-- Claim C7: above the summarization threshold, a successful summarization
yields a list whose first element is the synthesized system summary message
and whose remainder is exactly the last 5 pre-summarization messages,
verbatim and in order. -/
theorem summarization_result_shape (chat : List Message → Option String)
    (msgs : List Message) (summary : String)
    (hlen : summarizeThreshold < msgs.length)
    (hchat : chat (summaryRequest msgs) = some summary) :
    checkSummarize chat msgs =
      ⟨"system", "Previous conversation summary: " ++ summary⟩
        :: msgs.drop (msgs.length - 5) ∧
    (msgs.drop (msgs.length - 5)).length = 5 := by
  have h10 : ¬msgs.length < 10 := by
    unfold summarizeThreshold at hlen; omega
  constructor
  · rw [checkSummarize, if_pos hlen, summarizeContext, if_neg h10, hchat]
  · rw [List.length_drop]
    unfold summarizeThreshold at hlen
    omega

/-- Witness for C7's theorem on a concrete 31-message history. -/
theorem summarization_result_shape_witness :
    checkSummarize (fun _ => some "SUM") (List.replicate 31 ⟨"user", "m"⟩) =
      ⟨"system", "Previous conversation summary: SUM"⟩
        :: List.replicate 5 ⟨"user", "m"⟩ := by
  have h := summarization_result_shape (fun _ => some "SUM")
    (List.replicate 31 ⟨"user", "m"⟩) "SUM" (by simp [summarizeThreshold]) rfl
  rw [h.1]
  norm_num
  rfl

/-! ## Theorems: AgentLoop -/

theorem executeLoop_count_le (oracle : List Message → Option StreamReply)
    (exec : ToolCall → Except String String) (fuel : Nat) :
    ∀ msgs acc, (executeLoop oracle exec fuel msgs acc).2 ≤ fuel := by
  induction fuel with
  | zero => intro msgs acc; simp [executeLoop]
  | succ n ih =>
    intro msgs acc
    rw [executeLoop]
    cases oracle msgs with
    | none => simp
    | some reply =>
      dsimp only
      split_ifs
      · simp
      · have h := ih (AddMessage msgs "user" (toolResultsText exec reply.toolCalls))
          (acc ++ reply.text ++ "\n\n")
        dsimp only
        omega

theorem streamLoop_count_le (oracle : List Message → Option StreamReply)
    (exec : ToolCall → Except String String) (fuel : Nat) :
    ∀ msgs, (streamLoop oracle exec fuel msgs).2 ≤ fuel := by
  induction fuel with
  | zero => intro msgs; simp [streamLoop]
  | succ n ih =>
    intro msgs
    rw [streamLoop]
    cases oracle msgs with
    | none => simp
    | some reply =>
      dsimp only
      split_ifs
      · simp
      · simp
      · have h := ih (AddMessage msgs "user" (toolResultsText exec reply.toolCalls))
        dsimp only
        omega

/-- Claim C5: for every provider oracle and tool executor — including one
that requests a new tool call on every round — both agent loops make at
most maxIterations (10) provider calls and terminate (the loops are total
Lean functions). -/
theorem agent_loop_bounded (oracle : List Message → Option StreamReply)
    (exec : ToolCall → Except String String) (systemPrompt task : String)
    (msgs0 : List Message) :
    (ExecuteTask oracle exec systemPrompt task msgs0).2 ≤ maxIterations ∧
    (StreamTask oracle exec systemPrompt task msgs0).2 ≤ maxIterations ∧
    maxIterations = 10 :=
  ⟨executeLoop_count_le oracle exec maxIterations _ _,
   streamLoop_count_le oracle exec maxIterations _, rfl⟩

/-- Claim C6 (amended): a streamed reply with empty text and zero tool
calls is a protocol failure only in streamTask, which returns the
empty-response error; executeTask has no such check and completes
successfully on the same reply. -/
theorem empty_reply_stream_vs_execute (oracle : List Message → Option StreamReply)
    (exec : ToolCall → Except String String) (fuel : Nat) (msgs : List Message)
    (acc : String) (reply : StreamReply) (h : oracle msgs = some reply)
    (htext : reply.text = "") (htools : reply.toolCalls = []) :
    (streamLoop oracle exec (fuel + 1) msgs).1 = AgentResult.emptyResponse ∧
    ((executeLoop oracle exec (fuel + 1) msgs acc).1).isSome = true := by
  constructor
  · rw [streamLoop, h]
    simp [htext, htools]
  · rw [executeLoop, h]
    simp [htools]

/-- Witness for C6's theorem at a concrete empty reply. -/
theorem empty_reply_stream_vs_execute_witness :
    (streamLoop (fun _ => some ⟨"", []⟩) (fun _ => Except.ok "") 10 []).1 =
      AgentResult.emptyResponse :=
  (empty_reply_stream_vs_execute (fun _ => some ⟨"", []⟩) (fun _ => Except.ok "")
    9 [] "" ⟨"", []⟩ rfl rfl rfl).1

/-- Counterexample to C6 as stated: executeTask, given a reply with empty
text and zero tool calls, returns success (with the empty reply appended
twice), not an EmptyResponse-kind error. -/
theorem executeTask_accepts_empty_reply :
    ExecuteTask (fun _ => some ⟨"", []⟩) (fun _ => Except.ok "") "p" "t" [] =
      (some ([⟨"system", "p"⟩, ⟨"user", "t"⟩, ⟨"assistant", ""⟩, ⟨"assistant", "\n\n"⟩],
        "\n\n"), 1) ∧
    ((ExecuteTask (fun _ => some ⟨"", []⟩) (fun _ => Except.ok "") "p" "t" []).1).isSome
      = true := by
  exact ⟨rfl, rfl⟩

/-- Claim C10: when the streamed reply of an iteration carries no tool
calls, the executeTask loop appends the reply text as an assistant turn and
then, after breaking, appends the accumulated final response (with its
trailing blank line) as a second assistant turn, so the sequence ends with
two assistant messages; stated for the loop from any reached state and for
ExecuteTask as called. -/
theorem executeTask_double_assistant_append (oracle : List Message → Option StreamReply)
    (exec : ToolCall → Except String String) :
    (∀ (fuel : Nat) (msgs : List Message) (acc : String) (reply : StreamReply),
      oracle msgs = some reply → reply.toolCalls = [] →
      executeLoop oracle exec (fuel + 1) msgs acc =
        (some (msgs ++ [⟨"assistant", reply.text⟩,
            ⟨"assistant", acc ++ reply.text ++ "\n\n"⟩],
          acc ++ reply.text ++ "\n\n"), 1)) ∧
    (∀ (systemPrompt task : String) (msgs0 : List Message) (reply : StreamReply),
      oracle (AddMessage (SetSystemPrompt msgs0 systemPrompt) "user" task) = some reply →
      reply.toolCalls = [] →
      ExecuteTask oracle exec systemPrompt task msgs0 =
        (some (AddMessage (SetSystemPrompt msgs0 systemPrompt) "user" task ++
            [⟨"assistant", reply.text⟩, ⟨"assistant", "" ++ reply.text ++ "\n\n"⟩],
          "" ++ reply.text ++ "\n\n"), 1)) := by
  have hloop : ∀ (fuel : Nat) (msgs : List Message) (acc : String) (reply : StreamReply),
      oracle msgs = some reply → reply.toolCalls = [] →
      executeLoop oracle exec (fuel + 1) msgs acc =
        (some (msgs ++ [⟨"assistant", reply.text⟩,
            ⟨"assistant", acc ++ reply.text ++ "\n\n"⟩],
          acc ++ reply.text ++ "\n\n"), 1) := by
    intro fuel msgs acc reply h hnt
    rw [executeLoop, h]
    simp [hnt, AddMessage]
  exact ⟨hloop, fun systemPrompt task msgs0 reply h hnt =>
    hloop 9 (AddMessage (SetSystemPrompt msgs0 systemPrompt) "user" task) "" reply h hnt⟩

/-- Witness for C10's theorem at a concrete final reply. -/
theorem executeTask_double_assistant_append_witness :
    ExecuteTask (fun _ => some ⟨"done", []⟩) (fun _ => Except.ok "") "p" "t" [] =
      (some ([⟨"system", "p"⟩, ⟨"user", "t"⟩, ⟨"assistant", "done"⟩,
        ⟨"assistant", "done\n\n"⟩], "done\n\n"), 1) := by
  have h := (executeTask_double_assistant_append (fun _ => some ⟨"done", []⟩)
    (fun _ => Except.ok "")).2 "p" "t" [] ⟨"done", []⟩ rfl rfl
  simpa using h

end StorageDoctor
